import Mathlib

/-!
# Verification of the Atlas attraction retrieval engine (`src/vector_db.py`)

Shallow embedding of the `TravelVectorDB` class and its operations
(`add_attractions`, `search_similar`, `get_by_id`, `save_database`,
`load_database`, `get_statistics`), together with proofs of the spec's
claims about them.

Modelling conventions:
* The sentence-transformer model composed with faiss L2-normalization is
  abstracted as a parameter `encode : String → List Int`: an arbitrary
  deterministic map from description text to an exact-arithmetic vector.
  Every theorem quantifies over `encode`, so nothing depends on its values.
  Float components and scores are modelled by exact integers (claims under
  verification concern ranking, filtering and truncation, not rounding).
* `faiss.IndexFlatIP` holds the stored vectors in insertion order
  (`index : List (List Int)`); `index.search(q, n)` with `n` equal to the
  number of stored vectors performs an exhaustive exact inner-product
  ranking, modelled by `indexSearch`: every stored vector scored by dot
  product, sorted by score descending.  The order of equal scores is
  implementation-defined in faiss; the model fixes ascending position as a
  deterministic representative, a choice none of the proved theorems
  depend on.
* Monetary amounts and ratings are floats in the source; they are modelled
  as `ℚ`.
* The Python dict `id_to_idx` is modelled as an association list with
  last-write-wins update (`dictSet`) and first-match lookup (`dictGet`).
* `str.lower()` is modelled by `strLower` (character-wise `Char.toLower`).
* File I/O in `save_database` / `load_database` is modelled by passing the
  two persisted artifacts (vector blob and JSON sidecar) as explicit
  values.
-/

namespace Atlas

/-- The `Attraction` dataclass of `src/vector_db.py` (all 17 fields). -/
structure Attraction where
  id : String
  city : String
  country : String
  name : String
  description : String
  category : String
  avg_cost_usd : ℚ
  rating : ℚ
  latitude : ℚ
  longitude : ℚ
  address : String
  opening_hours : String
  website : String
  phone : String
  tags : List String
  image_url : String
  created_at : String
  last_updated : String
deriving DecidableEq

/-- Mutable state of a `TravelVectorDB` instance: the fixed dimension, the
faiss index contents (stored vectors in insertion order), the attraction
catalog, and the id-to-position dict. -/
structure TravelVectorDB where
  dimension : Nat
  index : List (List Int)
  attractions : List Attraction
  id_to_idx : List (String × Nat)
deriving DecidableEq

/-- `TravelVectorDB.__init__`: empty index, empty catalog, empty dict. -/
def initDB (dimension : Nat) : TravelVectorDB :=
  { dimension := dimension, index := [], attractions := [], id_to_idx := [] }

/-- Python dict update `m[k] = v`: replace the existing binding for `k`, or
append a new one. -/
def dictSet : List (String × Nat) → String → Nat → List (String × Nat)
  | [], k, v => [(k, v)]
  | (k', v') :: rest, k, v =>
      if k' = k then (k, v) :: rest else (k', v') :: dictSet rest k v

/-- Python dict lookup `m.get(k)`. -/
def dictGet : List (String × Nat) → String → Option Nat
  | [], _ => none
  | (k', v') :: rest, k => if k' = k then some v' else dictGet rest k

/-- `str.lower()` (character-wise, as for the ASCII data of this program). -/
def strLower (s : String) : String := ⟨s.data.map Char.toLower⟩

/-- Inner product of two stored/query vectors. -/
def dot (v w : List Int) : Int := (List.zipWith (· * ·) v w).sum

/-- Ranking order on (score, position) pairs: higher score first, ties by
ascending position. -/
def rankRel (a b : Int × Nat) : Prop :=
  b.1 < a.1 ∨ (a.1 = b.1 ∧ a.2 ≤ b.2)

instance : DecidableRel rankRel := fun a b => by unfold rankRel; infer_instance

instance : IsTotal (Int × Nat) rankRel := ⟨by
  intro a b
  rcases lt_trichotomy a.1 b.1 with h | h | h
  · exact Or.inr (Or.inl h)
  · rcases Nat.le_total a.2 b.2 with h2 | h2
    · exact Or.inl (Or.inr ⟨h, h2⟩)
    · exact Or.inr (Or.inr ⟨h.symm, h2⟩)
  · exact Or.inl (Or.inl h)⟩

instance : IsTrans (Int × Nat) rankRel := ⟨by
  intro a b c hab hbc
  rcases hab with h1 | ⟨e1, l1⟩ <;> rcases hbc with h2 | ⟨e2, l2⟩
  · exact Or.inl (h2.trans h1)
  · exact Or.inl (e2 ▸ h1)
  · exact Or.inl (e1 ▸ h2)
  · exact Or.inr ⟨e1.trans e2, l1.trans l2⟩⟩

/-- `self.index.search(query_embedding, len(self.attractions))` on a flat
inner-product index with the request size equal to the number of stored
vectors: score every stored vector against the query and return all
(score, position) pairs sorted by score descending.  faiss documents the
descending-score order but leaves the relative order of equal scores
implementation-defined; this model fixes ties by ascending position as a
deterministic representative.  The theorems that mention `indexSearch`
(relating the collection loop to the complete ranking, and the save/load
round-trip) are uniform in the ranked list, so they do not depend on this
tie-break choice. -/
def indexSearch (index : List (List Int)) (q : List Int) : List (Int × Nat) :=
  List.insertionSort rankRel (index.enum.map fun p => (dot p.2 q, p.1))

/-- The three filter tests of `search_similar`, combined.  Mirrors the
Python truthiness guards: `if category_filter and a.category.lower() !=
category_filter.lower(): continue` skips only when the filter is a
non-empty string; `if max_cost and a.avg_cost_usd > max_cost: continue`
skips only when `max_cost` is nonzero. -/
def passesFilters (a : Attraction) (category_filter city_filter : Option String)
    (max_cost : Option ℚ) : Bool :=
  (match category_filter with
   | none => true
   | some c => c == "" || strLower a.category == strLower c) &&
  (match city_filter with
   | none => true
   | some c => c == "" || strLower a.city == strLower c) &&
  (match max_cost with
   | none => true
   | some m => m == 0 || decide (a.avg_cost_usd ≤ m))

/-- The result-collection loop of `search_similar`: walk the ranked
(score, idx) list; skip invalid positions; skip filter-failing records;
append a passing record and stop as soon as `len(results) >= k` (note the
append happens *before* the length test, exactly as in the source). -/
def collectResults (atts : List Attraction) (category_filter city_filter : Option String)
    (max_cost : Option ℚ) (k : Int) (found : Nat) :
    List (Int × Nat) → List (Attraction × Int)
  | [] => []
  | (score, idx) :: rest =>
    match atts.get? idx with
    | none => collectResults atts category_filter city_filter max_cost k found rest
    | some a =>
      if passesFilters a category_filter city_filter max_cost then
        if ((found + 1 : Nat) : Int) ≥ k then [(a, score)]
        else (a, score) ::
          collectResults atts category_filter city_filter max_cost k (found + 1) rest
      else collectResults atts category_filter city_filter max_cost k found rest

/-- `TravelVectorDB.search_similar(query, k, category_filter, city_filter,
max_cost)`: empty catalog returns `[]`; otherwise embed the query, rank the
whole index, and run the collection loop.  Results are (record, score)
pairs in collection order. -/
def search_similar (encode : String → List Int) (db : TravelVectorDB) (query : String)
    (k : Int) (category_filter city_filter : Option String) (max_cost : Option ℚ) :
    List (Attraction × Int) :=
  if db.attractions.length = 0 then []
  else
    collectResults db.attractions category_filter city_filter max_cost k 0
      (indexSearch db.index (encode query))

/-- The complete ranking joined with the catalog and filtered: every ranked
position resolved to its record (invalid positions dropped), in rank
order, restricted to filter-passing records. -/
def filteredRanking (atts : List Attraction) (category_filter city_filter : Option String)
    (max_cost : Option ℚ) (ranked : List (Int × Nat)) : List (Attraction × Int) :=
  (ranked.filterMap fun p => (atts.get? p.2).map fun a => (a, p.1)).filter
    fun p => passesFilters p.1 category_filter city_filter max_cost

/-- Modelled from the spec (the brute-force reference of the *True top-k*
property, not present in the source): rank every stored record by
similarity descending, filter by the predicates, then truncate to the
first `limit` survivors. -/
def bruteForceSearch (encode : String → List Int) (db : TravelVectorDB) (query : String)
    (k : Int) (category_filter city_filter : Option String) (max_cost : Option ℚ) :
    List (Attraction × Int) :=
  (filteredRanking db.attractions category_filter city_filter max_cost
    (indexSearch db.index (encode query))).take k.toNat

/-- The catalog/dict update loop of `add_attractions`: append each record
and bind its id to the position it was appended at (the current catalog
length). -/
def addLoop (atts : List Attraction) (m : List (String × Nat)) :
    List Attraction → List Attraction × List (String × Nat)
  | [] => (atts, m)
  | a :: rest => addLoop (atts ++ [a]) (dictSet m a.id atts.length) rest

/-- `TravelVectorDB.add_attractions(attractions)`: embed every description,
append the embeddings to the index, then append each record to the catalog
binding its id to its new position.  The source performs no duplicate-id or
dimension check. -/
def add_attractions (encode : String → List Int) (db : TravelVectorDB)
    (batch : List Attraction) : TravelVectorDB :=
  let embeddings := batch.map fun a => encode a.description
  let st := addLoop db.attractions db.id_to_idx batch
  { dimension := db.dimension
    index := db.index ++ embeddings
    attractions := st.1
    id_to_idx := st.2 }

/-- `TravelVectorDB.get_by_id(attraction_id)`: dict lookup, then catalog
access at the bound position. -/
def get_by_id (db : TravelVectorDB) (attraction_id : String) : Option Attraction :=
  match dictGet db.id_to_idx attraction_id with
  | some idx => db.attractions.get? idx
  | none => none

/-- The JSON sidecar written by `save_database`: the full record list, the
id-to-position dict, and the declared dimension. -/
structure SavedData where
  attractions : List Attraction
  id_to_idx : List (String × Nat)
  dimension : Nat
deriving DecidableEq

/-- `TravelVectorDB.save_database(filepath)`: writes the faiss index blob
(the stored vectors) and the JSON sidecar.  Modelled as producing the two
artifacts. -/
def save_database (db : TravelVectorDB) : List (List Int) × SavedData :=
  (db.index, { attractions := db.attractions, id_to_idx := db.id_to_idx,
               dimension := db.dimension })

/-- `TravelVectorDB.load_database(filepath)`: reads the index blob and the
sidecar and installs all four fields unconditionally.  The source performs
no dimension or count validation. -/
def load_database (_db : TravelVectorDB) (indexBlob : List (List Int))
    (data : SavedData) : TravelVectorDB :=
  { dimension := data.dimension
    index := indexBlob
    attractions := data.attractions
    id_to_idx := data.id_to_idx }

/-- `np.round(x, 2)` on exact values. -/
def round2 (q : ℚ) : ℚ := (round (100 * q) : ℤ) / 100

/-- Result shape of `get_statistics`: the bare `{"total_attractions": 0}`
dict for an empty catalog, or the full statistics dict. -/
inductive StatsResult where
  | emptyStats : StatsResult
  | stats (total_attractions : Nat) (cities : Nat) (categories : Nat)
      (avg_rating : ℚ) (avg_cost_usd : ℚ)
      (city_list : List String) (category_list : List String) : StatsResult
deriving DecidableEq

/-- `sorted(list(s))` over a set of strings: deduplicate, then sort. -/
def sortedDistinct (l : List String) : List String :=
  List.insertionSort (fun a b : String => a ≤ b) l.dedup

/-- `TravelVectorDB.get_statistics()`. -/
def get_statistics (db : TravelVectorDB) : StatsResult :=
  if db.attractions = [] then .emptyStats
  else
    let n : ℚ := db.attractions.length
    .stats db.attractions.length
      ((db.attractions.map fun a => a.city).dedup).length
      ((db.attractions.map fun a => a.category).dedup).length
      (round2 ((db.attractions.map fun a => a.rating).sum / n))
      (round2 ((db.attractions.map fun a => a.avg_cost_usd).sum / n))
      (sortedDistinct (db.attractions.map fun a => a.city))
      (sortedDistinct (db.attractions.map fun a => a.category))

/-- Engine states reachable from a fresh `TravelVectorDB()` by
`add_attractions` calls (the engine's only mutator besides load). -/
inductive Reachable (encode : String → List Int) : TravelVectorDB → Prop
  | init (dimension : Nat) : Reachable encode (initDB dimension)
  | add (db : TravelVectorDB) (batch : List Attraction) :
      Reachable encode db → Reachable encode (add_attractions encode db batch)

/-! ## Helper lemmas -/

/-- Lookup after a dict update: the updated key reads the new value, every
other key is unaffected. -/
theorem dictGet_dictSet (m : List (String × Nat)) (k : String) (v : Nat) (k' : String) :
    dictGet (dictSet m k v) k' = if k = k' then some v else dictGet m k' := by
  induction m with
  | nil => simp [dictSet, dictGet]
  | cons p rest ih =>
    obtain ⟨pk, pv⟩ := p
    by_cases h : pk = k
    · subst h
      simp only [dictSet, if_pos rfl, dictGet]
      by_cases h2 : pk = k' <;> simp [h2]
    · simp only [dictSet, if_neg h, dictGet]
      by_cases h2 : pk = k'
      · subst h2
        have hk : ¬ k = pk := fun e => h e.symm
        simp [hk]
      · simp [h2, ih]

/-- The catalog produced by the `add_attractions` loop is the old catalog
with the batch appended. -/
theorem addLoop_fst (batch : List Attraction) :
    ∀ (atts : List Attraction) (m : List (String × Nat)),
      (addLoop atts m batch).1 = atts ++ batch := by
  induction batch with
  | nil => intro atts m; simp [addLoop]
  | cons a rest ih => intro atts m; simp [addLoop, ih]

/-- The `add_attractions` loop preserves id-map consistency: every bound id
points at a record carrying that id. -/
theorem addLoop_consistent (batch : List Attraction) :
    ∀ (atts : List Attraction) (m : List (String × Nat)),
      (∀ i pos, dictGet m i = some pos → ∃ a, atts.get? pos = some a ∧ a.id = i) →
      ∀ i pos, dictGet (addLoop atts m batch).2 i = some pos →
        ∃ a, (addLoop atts m batch).1.get? pos = some a ∧ a.id = i := by
  induction batch with
  | nil => intro atts m h; simpa [addLoop] using h
  | cons a rest ih =>
    intro atts m h
    refine ih (atts ++ [a]) (dictSet m a.id atts.length) ?_
    intro i pos hget
    rw [dictGet_dictSet] at hget
    by_cases hc : a.id = i
    · simp [hc] at hget
      exact ⟨a, by rw [← hget]; exact List.get?_concat_length atts a, hc⟩
    · simp [hc] at hget
      obtain ⟨b, hb, hbid⟩ := h i pos hget
      have hlt : pos < atts.length := (List.get?_eq_some.mp hb).1
      exact ⟨b, by rw [List.get?_append hlt]; exact hb, hbid⟩

/-- An empty catalog makes the filtered ranking empty: no position
resolves to a record. -/
theorem filteredRanking_nil (cf cif : Option String) (mc : Option ℚ)
    (ranked : List (Int × Nat)) : filteredRanking [] cf cif mc ranked = [] := by
  have : ranked.filterMap (fun p => (([] : List Attraction).get? p.2).map fun a => (a, p.1)) = [] := by
    apply List.filterMap_eq_nil.mpr
    intro p _
    simp
  simp [filteredRanking, this]

/-- The collection loop, in the regime where fewer than `k` results have
been collected, returns exactly the next `k - found` entries of the
filtered ranking. -/
theorem collect_eq_take (atts : List Attraction) (cf cif : Option String) (mc : Option ℚ)
    (k : Int) (ranked : List (Int × Nat)) :
    ∀ found : Nat, (found : Int) < k →
      collectResults atts cf cif mc k found ranked =
        (filteredRanking atts cf cif mc ranked).take (k - found).toNat := by
  induction ranked with
  | nil => intro found _; simp [collectResults, filteredRanking]
  | cons q rest ih =>
    intro found h
    obtain ⟨s, i⟩ := q
    cases hg : atts[i]? with
    | none =>
      have hfr : filteredRanking atts cf cif mc ((s, i) :: rest) =
          filteredRanking atts cf cif mc rest := by
        simp [filteredRanking, List.filterMap_cons, hg]
      rw [show collectResults atts cf cif mc k found ((s, i) :: rest) =
            collectResults atts cf cif mc k found rest by simp [collectResults, hg],
          hfr]
      exact ih found h
    | some a =>
      by_cases hp : passesFilters a cf cif mc = true
      · have hfr : filteredRanking atts cf cif mc ((s, i) :: rest) =
            (a, s) :: filteredRanking atts cf cif mc rest := by
          simp [filteredRanking, List.filterMap_cons, hg, hp]
        by_cases hk : ((found + 1 : Nat) : Int) ≥ k
        · have hk2 : k ≤ (found : Int) + 1 := by push_cast at hk; omega
          have hk1 : (k - found).toNat = 1 := by
            push_cast at hk h ⊢
            omega
          rw [show collectResults atts cf cif mc k found ((s, i) :: rest) = [(a, s)] by
                simp [collectResults, hg, hp, hk2],
              hfr, hk1]
          simp
        · have hk2 : ¬ k ≤ (found : Int) + 1 := by push_cast at hk; omega
          have hlt : ((found + 1 : Nat) : Int) < k := lt_of_not_ge hk
          have hsucc : (k - found).toNat = (k - (found + 1 : Nat)).toNat + 1 := by
            push_cast at hlt h ⊢
            omega
          rw [show collectResults atts cf cif mc k found ((s, i) :: rest) =
                (a, s) :: collectResults atts cf cif mc k (found + 1) rest by
                simp [collectResults, hg, hp, hk2],
              hfr, ih (found + 1) hlt, hsucc, List.take_succ_cons]
      · have hfr : filteredRanking atts cf cif mc ((s, i) :: rest) =
            filteredRanking atts cf cif mc rest := by
          simp [filteredRanking, List.filterMap_cons, hg, hp]
        rw [show collectResults atts cf cif mc k found ((s, i) :: rest) =
              collectResults atts cf cif mc k found rest by simp [collectResults, hg, hp],
            hfr]
        exact ih found h

/-- The collection loop, once `k ≤ found + 1`, stops at the first passing
record: it returns the first entry of the filtered ranking (if any). -/
theorem collect_eq_take_one (atts : List Attraction) (cf cif : Option String)
    (mc : Option ℚ) (k : Int) (ranked : List (Int × Nat)) :
    ∀ found : Nat, k ≤ (found : Int) + 1 →
      collectResults atts cf cif mc k found ranked =
        (filteredRanking atts cf cif mc ranked).take 1 := by
  induction ranked with
  | nil => intro found _; simp [collectResults, filteredRanking]
  | cons q rest ih =>
    intro found h
    obtain ⟨s, i⟩ := q
    cases hg : atts[i]? with
    | none =>
      have hfr : filteredRanking atts cf cif mc ((s, i) :: rest) =
          filteredRanking atts cf cif mc rest := by
        simp [filteredRanking, List.filterMap_cons, hg]
      rw [show collectResults atts cf cif mc k found ((s, i) :: rest) =
            collectResults atts cf cif mc k found rest by simp [collectResults, hg],
          hfr]
      exact ih found h
    | some a =>
      by_cases hp : passesFilters a cf cif mc = true
      · have hk2 : k ≤ (found : Int) + 1 := h
        have hfr : filteredRanking atts cf cif mc ((s, i) :: rest) =
            (a, s) :: filteredRanking atts cf cif mc rest := by
          simp [filteredRanking, List.filterMap_cons, hg, hp]
        rw [show collectResults atts cf cif mc k found ((s, i) :: rest) = [(a, s)] by
              simp [collectResults, hg, hp, hk2],
            hfr]
        simp
      · have hfr : filteredRanking atts cf cif mc ((s, i) :: rest) =
            filteredRanking atts cf cif mc rest := by
          simp [filteredRanking, List.filterMap_cons, hg, hp]
        rw [show collectResults atts cf cif mc k found ((s, i) :: rest) =
              collectResults atts cf cif mc k found rest by simp [collectResults, hg, hp],
            hfr]
        exact ih found h

/-- Every record the collection loop outputs passed the filters. -/
theorem mem_collect_passes (atts : List Attraction) (cf cif : Option String)
    (mc : Option ℚ) (k : Int) (ranked : List (Int × Nat)) :
    ∀ (found : Nat) (p : Attraction × Int), p ∈ collectResults atts cf cif mc k found ranked →
      passesFilters p.1 cf cif mc = true := by
  induction ranked with
  | nil => intro found p hp; simp [collectResults] at hp
  | cons q rest ih =>
    intro found p hp
    obtain ⟨s, i⟩ := q
    cases hg : atts[i]? with
    | none =>
      rw [show collectResults atts cf cif mc k found ((s, i) :: rest) =
            collectResults atts cf cif mc k found rest by simp [collectResults, hg]] at hp
      exact ih found p hp
    | some a =>
      by_cases hpass : passesFilters a cf cif mc = true
      · by_cases hk : ((found + 1 : Nat) : Int) ≥ k
        · have hk2 : k ≤ (found : Int) + 1 := by push_cast at hk; omega
          rw [show collectResults atts cf cif mc k found ((s, i) :: rest) = [(a, s)] by
                simp [collectResults, hg, hpass, hk2]] at hp
          simp at hp
          rw [hp]
          exact hpass
        · have hk2 : ¬ k ≤ (found : Int) + 1 := by push_cast at hk; omega
          rw [show collectResults atts cf cif mc k found ((s, i) :: rest) =
                (a, s) :: collectResults atts cf cif mc k (found + 1) rest by
                simp [collectResults, hg, hpass, hk2]] at hp
          rcases List.mem_cons.mp hp with hpe | hpm
          · rw [hpe]; exact hpass
          · exact ih (found + 1) p hpm
      · rw [show collectResults atts cf cif mc k found ((s, i) :: rest) =
              collectResults atts cf cif mc k found rest by
              simp [collectResults, hg, hpass]] at hp
        exact ih found p hp

/-! ## Concrete instances used by witnesses and counterexamples -/

/-- A constant embedding provider (dimension 1) used to instantiate the
universally quantified theorems on concrete engines. -/
def encA : String → List Int := fun _ => [1]

/-- A concrete attraction record. -/
def attr1 : Attraction :=
  { id := "P1", city := "Paris", country := "France", name := "Louvre"
    description := "art museum", category := "Museum", avg_cost_usd := 5
    rating := 4, latitude := 0, longitude := 0, address := "", opening_hours := ""
    website := "", phone := "", tags := [], image_url := "", created_at := ""
    last_updated := "" }

/-- A one-record engine state: the state produced by adding `attr1` to a
fresh 1-dimensional engine under provider `encA`. -/
def db1 : TravelVectorDB :=
  { dimension := 1, index := [[1]], attractions := [attr1], id_to_idx := [("P1", 0)] }

/-! ## Claim theorems -/

/-- Claim C1 counterexample: with `limit = 0` (a legal value of the claim's
"every limit"), `search_similar` on a one-record catalog returns that
record, while the rank-filter-truncate reference returns the empty list —
the loop appends a passing record before testing `len(results) >= k`. -/
theorem search_bruteforce_limit_zero_cex :
    search_similar encA db1 "q" 0 none none none ≠
      bruteForceSearch encA db1 "q" 0 none none none := by
  decide

/-- Claim C1 (amended: for every limit ≥ 1): the result of `search_similar`
equals the brute-force reference that ranks every stored record by
similarity descending, filters by the given predicates, and truncates to
the first `limit` survivors. -/
theorem search_matches_bruteforce (encode : String → List Int) (db : TravelVectorDB)
    (query : String) (k : Int) (cf cif : Option String) (mc : Option ℚ) (hk : 1 ≤ k) :
    search_similar encode db query k cf cif mc =
      bruteForceSearch encode db query k cf cif mc := by
  unfold search_similar bruteForceSearch
  by_cases h : db.attractions.length = 0
  · rw [if_pos h]
    have he : db.attractions = [] := List.length_eq_zero.mp h
    rw [he, filteredRanking_nil]
    simp
  · rw [if_neg h]
    have h0 : ((0 : Nat) : Int) < k := by push_cast; omega
    rw [collect_eq_take db.attractions cf cif mc k _ 0 h0]
    have ht : (k - ((0 : Nat) : Int)).toNat = k.toNat := by norm_num
    rw [ht]

/-- Claim C1 witness: the amended theorem applied at a concrete engine and
`limit = 1`. -/
theorem search_matches_bruteforce_witness :
    (1 : Int) ≤ 1 ∧
      search_similar encA db1 "q" 1 none none none =
        bruteForceSearch encA db1 "q" 1 none none none :=
  ⟨by decide, search_matches_bruteforce encA db1 "q" 1 none none none (by decide)⟩

/-- Claim C2 counterexample: with `maxCost = 0` the source's truthiness
guard (`if max_cost and ...`) disables the cost filter, so a record costing
5 is returned even though the claim requires `avg_cost_usd ≤ 0`. -/
theorem filter_maxcost_zero_cex :
    ¬ ∀ p ∈ search_similar encA db1 "q" 10 none none (some 0), p.1.avg_cost_usd ≤ 0 := by
  decide

/-- Claim C2 (amended): every record returned by `search_similar` satisfies
each supplied filter unless that filter is Python-falsy (empty string for
category/city, zero for maxCost), in which case that filter is ignored:
category and city match case-insensitively, and the cost bound is
inclusive. -/
theorem filter_soundness (encode : String → List Int) (db : TravelVectorDB)
    (query : String) (k : Int) (cf cif : Option String) (mc : Option ℚ)
    (a : Attraction) (s : Int)
    (h : (a, s) ∈ search_similar encode db query k cf cif mc) :
    (∀ c, cf = some c → c = "" ∨ strLower a.category = strLower c) ∧
    (∀ c, cif = some c → c = "" ∨ strLower a.city = strLower c) ∧
    (∀ m, mc = some m → m = 0 ∨ a.avg_cost_usd ≤ m) := by
  have hp : passesFilters a cf cif mc = true := by
    unfold search_similar at h
    by_cases h0 : db.attractions.length = 0
    · rw [if_pos h0] at h
      simp at h
    · rw [if_neg h0] at h
      exact mem_collect_passes db.attractions cf cif mc k _ 0 (a, s) h
  refine ⟨?_, ?_, ?_⟩
  · intro c hc
    subst hc
    have hp' := hp
    simp only [passesFilters, Bool.and_eq_true, Bool.or_eq_true, beq_iff_eq,
      decide_eq_true_eq] at hp'
    exact hp'.1.1
  · intro c hc
    subst hc
    have hp' := hp
    simp only [passesFilters, Bool.and_eq_true, Bool.or_eq_true, beq_iff_eq,
      decide_eq_true_eq] at hp'
    exact hp'.1.2
  · intro m hm
    subst hm
    have hp' := hp
    simp only [passesFilters, Bool.and_eq_true, Bool.or_eq_true, beq_iff_eq,
      decide_eq_true_eq] at hp'
    exact hp'.2

/-- Claim C2 witness: the amended theorem applied to a concrete result that
passed a case-insensitive category filter. -/
theorem filter_soundness_witness :
    ((attr1, 1) ∈ search_similar encA db1 "q" 5 (some "museum") none (some 10)) ∧
      ("museum" = "" ∨ strLower attr1.category = strLower "museum") :=
  ⟨by decide,
    (filter_soundness encA db1 "q" 5 (some "museum") none (some 10) attr1 1
        (by decide)).1 "museum" rfl⟩

/-- Claim C3 counterexample: with `limit = 0` on a one-record catalog the
result is not empty (the loop appends before testing the bound). -/
theorem limit_zero_not_empty_cex :
    search_similar encA db1 "q" 0 none none none ≠ [] := by
  decide

/-- Claim C3 (amended): with `limit ≤ 0`, `search_similar` returns the
first filter-passing record of the complete ranking as a singleton (empty
only when no record passes the filters or the catalog is empty). -/
theorem nonpositive_limit_singleton (encode : String → List Int) (db : TravelVectorDB)
    (query : String) (k : Int) (cf cif : Option String) (mc : Option ℚ) (hk : k ≤ 0) :
    search_similar encode db query k cf cif mc =
      (filteredRanking db.attractions cf cif mc
        (indexSearch db.index (encode query))).take 1 := by
  unfold search_similar
  by_cases h : db.attractions.length = 0
  · rw [if_pos h]
    have he : db.attractions = [] := List.length_eq_zero.mp h
    rw [he, filteredRanking_nil]
    simp
  · rw [if_neg h]
    exact collect_eq_take_one db.attractions cf cif mc k _ 0 (by push_cast; omega)

/-- Claim C3 witness: the amended theorem applied at `limit = 0` on a
concrete engine. -/
theorem nonpositive_limit_singleton_witness :
    (0 : Int) ≤ 0 ∧
      search_similar encA db1 "q" 0 none none none =
        (filteredRanking db1.attractions none none none
          (indexSearch db1.index (encA "q"))).take 1 :=
  ⟨by decide, nonpositive_limit_singleton encA db1 "q" 0 none none none (by decide)⟩

/-- Claim C4 counterexample: adding a batch whose record id `P1` already
exists in the catalog neither rejects the batch nor leaves the state
unchanged — the catalog grows from 1 to 2 records. -/
theorem add_duplicate_id_cex :
    dictGet db1.id_to_idx attr1.id = some 0 ∧
      add_attractions encA db1 [attr1] ≠ db1 ∧
      (add_attractions encA db1 [attr1]).attractions.length = 2 := by
  decide

/-- Claim C4 (amended): `add_attractions` performs no duplicate-id (or any
other) validation: for every batch — duplicates included — it appends the
whole batch to the catalog, appends one embedding per record to the index,
and leaves the dimension unchanged; it never rejects. -/
theorem add_never_rejects (encode : String → List Int) (db : TravelVectorDB)
    (batch : List Attraction) :
    (add_attractions encode db batch).attractions = db.attractions ++ batch ∧
    (add_attractions encode db batch).index =
      db.index ++ batch.map (fun a => encode a.description) ∧
    (add_attractions encode db batch).dimension = db.dimension := by
  refine ⟨?_, rfl, rfl⟩
  simp [add_attractions, addLoop_fst]

/-- Claim C5 counterexample: loading a blob containing one 3-component
vector together with a sidecar declaring dimension 2 and zero records (both
a dimension and a count mismatch) does not fail and does not keep the prior
state: it installs an engine whose index and catalog sizes disagree. -/
theorem load_mismatch_cex :
    ((⟨[], [], 2⟩ : SavedData).attractions.length ≠ ([[1, 2, 3]] : List (List Int)).length) ∧
      load_database (initDB 2) [[1, 2, 3]] ⟨[], [], 2⟩ ≠ initDB 2 ∧
      (load_database (initDB 2) [[1, 2, 3]] ⟨[], [], 2⟩).index.length ≠
        (load_database (initDB 2) [[1, 2, 3]] ⟨[], [], 2⟩).attractions.length := by
  decide

/-- Claim C5 (amended): `load_database` performs no dimension or count
validation: for every pair of artifacts — mismatched ones included — it
unconditionally installs the blob's vectors and the sidecar's records,
id-map and dimension, discarding the prior state. -/
theorem load_installs_unconditionally (db : TravelVectorDB) (blob : List (List Int))
    (data : SavedData) :
    (load_database db blob data).index = blob ∧
    (load_database db blob data).attractions = data.attractions ∧
    (load_database db blob data).id_to_idx = data.id_to_idx ∧
    (load_database db blob data).dimension = data.dimension :=
  ⟨rfl, rfl, rfl, rfl⟩

/-- Claim C7: saving an engine and loading the two artifacts into any fresh
engine yields identical `search_similar` results for every query, limit and
filter combination, and identical `get_statistics` output. -/
theorem save_load_roundtrip (encode : String → List Int) (freshE db : TravelVectorDB)
    (query : String) (k : Int) (cf cif : Option String) (mc : Option ℚ) :
    search_similar encode (load_database freshE (save_database db).1 (save_database db).2)
        query k cf cif mc =
      search_similar encode db query k cf cif mc ∧
    get_statistics (load_database freshE (save_database db).1 (save_database db).2) =
      get_statistics db := by
  have h : load_database freshE (save_database db).1 (save_database db).2 = db := rfl
  rw [h]
  exact ⟨rfl, rfl⟩

/-- Claim C8: in every reachable engine state the index and the catalog
have the same size — the fresh engine starts at 0 = 0, and every
`add_attractions` call grows both structures by exactly the batch size. -/
theorem size_invariant (encode : String → List Int) (db : TravelVectorDB)
    (h : Reachable encode db) :
    db.index.length = db.attractions.length ∧
    ∀ batch : List Attraction,
      (add_attractions encode db batch).attractions.length =
          db.attractions.length + batch.length ∧
      (add_attractions encode db batch).index.length =
          db.index.length + batch.length := by
  have growth : ∀ (db' : TravelVectorDB) (batch : List Attraction),
      (add_attractions encode db' batch).attractions.length =
          db'.attractions.length + batch.length ∧
      (add_attractions encode db' batch).index.length =
          db'.index.length + batch.length := by
    intro db' batch
    constructor
    · simp [add_attractions, addLoop_fst]
    · simp [add_attractions]
  refine ⟨?_, growth db⟩
  induction h with
  | init d => rfl
  | add db' batch _ ih =>
    have g := growth db' batch
    omega

/-- Claim C8 witness: the invariant evaluated on the engine obtained by one
concrete `add_attractions` call on a fresh engine. -/
theorem size_invariant_witness :
    (add_attractions encA (initDB 1) [attr1]).index.length =
      (add_attractions encA (initDB 1) [attr1]).attractions.length :=
  (size_invariant encA (add_attractions encA (initDB 1) [attr1])
      (Reachable.add _ _ (Reachable.init 1))).1

/-- Claim C9: `search_similar` on an engine with an empty catalog returns
the empty list for every query, limit and filter combination (and, being a
total function of the state, raises no error). -/
theorem empty_catalog_search (encode : String → List Int) (db : TravelVectorDB)
    (query : String) (k : Int) (cf cif : Option String) (mc : Option ℚ)
    (h : db.attractions = []) :
    search_similar encode db query k cf cif mc = [] := by
  simp [search_similar, h]

/-- Claim C9 witness: the theorem applied to a fresh engine with every
filter supplied. -/
theorem empty_catalog_search_witness :
    (initDB 384).attractions = [] ∧
      search_similar encA (initDB 384) "anything" 10 (some "Museum") (some "Paris")
        (some 5) = [] :=
  ⟨rfl, empty_catalog_search encA (initDB 384) "anything" 10 (some "Museum") (some "Paris")
    (some 5) rfl⟩

/-- Claim C10: in every reachable engine state the id-to-position map is
consistent with the catalog: each mapped id points at a valid position
whose record carries exactly that id, so `get_by_id` on a mapped id returns
a record with the queried id. -/
theorem id_map_consistent (encode : String → List Int) (db : TravelVectorDB)
    (h : Reachable encode db) :
    ∀ i pos, dictGet db.id_to_idx i = some pos →
      pos < db.attractions.length ∧
      ∃ a, db.attractions.get? pos = some a ∧ a.id = i ∧ get_by_id db i = some a := by
  have core : ∀ i pos, dictGet db.id_to_idx i = some pos →
      ∃ a, db.attractions.get? pos = some a ∧ a.id = i := by
    induction h with
    | init d =>
      intro i pos hg
      simp [initDB, dictGet] at hg
    | add db' batch _ ih =>
      exact addLoop_consistent batch db'.attractions db'.id_to_idx ih
  intro i pos hg
  obtain ⟨a, ha, haid⟩ := core i pos hg
  refine ⟨(List.get?_eq_some.mp ha).1, a, ha, haid, ?_⟩
  simp only [get_by_id, hg]
  exact ha

/-- Claim C10 witness: the consistency theorem evaluated on the engine
obtained by one concrete `add_attractions` call. -/
theorem id_map_consistent_witness :
    dictGet (add_attractions encA (initDB 1) [attr1]).id_to_idx "P1" = some 0 ∧
      (0 < (add_attractions encA (initDB 1) [attr1]).attractions.length ∧
        ∃ a, (add_attractions encA (initDB 1) [attr1]).attractions.get? 0 = some a ∧
          a.id = "P1" ∧ get_by_id (add_attractions encA (initDB 1) [attr1]) "P1" = some a) :=
  ⟨by decide,
    id_map_consistent encA (add_attractions encA (initDB 1) [attr1])
      (Reachable.add _ _ (Reachable.init 1)) "P1" 0 (by decide)⟩

end Atlas
